import Mathlib

/-!
Verification of the `projeto_estoque` warehouse-expedition KPI code.

The Python source (`src/db.py`, `src/kpis.py`) is shallowly embedded here:

* timestamps ("YYYY-MM-DD HH:MM:SS" local-time strings, compared and
  subtracted after conversion to epoch seconds) are modelled as `Int`
  seconds; calendar days ("YYYY-MM-DD") stay `String`s, compared with the
  byte/code-point lexicographic order SQLite's BINARY collation and
  Python string comparison use on this fixed-width format;
* SQLite tables become lists of records; SQL aggregates (`MIN`/`MAX`
  ignoring NULL, `SUM`, `GROUP BY`, `ORDER BY`) become list folds;
* Python's stable `list.sort(key=...)` and pandas `sort_values` become a
  structural stable insertion sort `sortBy` (extensionally equal to any
  stable sort for a total preorder; the keys sorted on below are unique,
  so stability is not even load-bearing);
* Python exceptions (`ValueError` used for invalid stage / invalid batch,
  SQLite CHECK violations) become `Except String`;
* the wall clock (`iso_now`, `datetime.now()`) becomes explicit `ts`/`now`
  parameters.
-/

namespace Expedicao

/-- A stable insertion step: `x` goes after every earlier element `y` with
`le y x`, so the relative order of equal keys is preserved. -/
def insertBy {α : Type} (le : α → α → Bool) (x : α) : List α → List α
  | [] => [x]
  | y :: ys => if le y x then y :: insertBy le x ys else x :: y :: ys

/-- Stable sort by `le`: models Python's stable `list.sort(key=...)` and the
`ORDER BY` / `sort_values` sorts of the source. -/
def sortBy {α : Type} (le : α → α → Bool) (l : List α) : List α :=
  l.foldl (fun acc x => insertBy le x acc) []

/-- Code-point lexicographic order on character lists: the order SQLite's
BINARY collation and Python give the source's ISO date strings. -/
def lexLe : List Char → List Char → Bool
  | [], _ => true
  | _ :: _, [] => false
  | c :: cs, d :: ds =>
    if c.toNat < d.toNat then true
    else if d.toNat < c.toNat then false
    else lexLe cs ds

/-- `a ≤ b` on strings, code-point lexicographic. -/
def strLe (a b : String) : Bool := lexLe a.data b.data

/-- One row fed to the union engine: `src/db.py fetch_session_intervals`
returns `(session_id, day, start_ts, end_ts)` records. -/
structure IntervalRow where
  session_id : Nat
  day : String
  start_ts : Option Int
  end_ts : Option Int
deriving DecidableEq

/-- Interval order used by `intervals.sort(key=lambda t: t[0])` in
`src/kpis.py _union_active_seconds_by_day`: by start time ascending. -/
def startLe (a b : Int × Int) : Bool := decide (a.1 ≤ b.1)

/-- `intervals.sort(key=lambda t: t[0])` of `_union_active_seconds_by_day`. -/
def sortByStart (ivs : List (Int × Int)) : List (Int × Int) :=
  sortBy startLe ivs

/-- The sweep loop of `_union_active_seconds_by_day` (src/kpis.py:143-149):
carrying the current merged interval `(cs, ce)`, the next interval `(s, e)`
is merged whenever `s <= cur_e` (extending `cur_e` when `e > cur_e`),
otherwise the current interval is emitted and `(s, e)` starts a new one. -/
def sweep (cs ce : Int) : List (Int × Int) → List (Int × Int)
  | [] => [(cs, ce)]
  | (s, e) :: rest =>
    if s ≤ ce then sweep cs (if ce < e then e else ce) rest
    else (cs, ce) :: sweep s e rest

/-- `merged` of `_union_active_seconds_by_day`: the sweep seeded with the
first sorted interval; the empty day short-circuits to no intervals. -/
def mergeIntervals : List (Int × Int) → List (Int × Int)
  | [] => []
  | (s, e) :: rest => sweep s e rest

/-- A single day's `active_seconds` (src/kpis.py:139-153): sort the day's
intervals by start, sweep-merge them, and sum `end - start` in whole
seconds over the merged intervals. -/
def dayActiveSeconds (ivs : List (Int × Int)) : Int :=
  ((mergeIntervals (sortByStart ivs)).map (fun p => p.2 - p.1)).sum

/-- `by_day.setdefault(day, []).append((s, e))` on the insertion-ordered
Python dict, modelled on an association list: append `iv` to the entry of
`d`, or add a new entry of `d` at the end. -/
def addToDay (acc : List (String × List (Int × Int))) (d : String)
    (iv : Int × Int) : List (String × List (Int × Int)) :=
  match acc with
  | [] => [(d, [iv])]
  | (d0, ivs) :: rest =>
    if d0 = d then (d0, ivs ++ [iv]) :: rest
    else (d0, ivs) :: addToDay rest d iv

/-- One iteration of the grouping loop of `_union_active_seconds_by_day`
(src/kpis.py:124-132): records with a null start or null end are skipped. -/
def groupStep (acc : List (String × List (Int × Int))) (r : IntervalRow) :
    List (String × List (Int × Int)) :=
  match r.start_ts, r.end_ts with
  | some s, some e => addToDay acc r.day (s, e)
  | _, _ => acc

/-- The `by_day` dict of `_union_active_seconds_by_day` after the grouping
loop, as an insertion-ordered association list. -/
def groupByDay (rows : List IntervalRow) : List (String × List (Int × Int)) :=
  rows.foldl groupStep []

/-- Day order for the final `sort_values("day")` and SQL `ORDER BY day`. -/
def dayLe {α : Type} (a b : String × α) : Bool := strLe a.1 b.1

/-- `src/kpis.py _union_active_seconds_by_day`: group the surviving records
by day, compute each day's merged active seconds, and return the
`(day, active_seconds)` rows sorted by day. -/
def union_active_seconds_by_day (rows : List IntervalRow) :
    List (String × Int) :=
  sortBy dayLe ((groupByDay rows).map (fun p => (p.1, dayActiveSeconds p.2)))

/-- Spec-side projection: the day's surviving intervals, i.e. the
`(start, end)` pairs of the records of day `d` whose start and end are both
non-null, in record order. -/
def survivingIntervals (rows : List IntervalRow) (d : String) :
    List (Int × Int) :=
  rows.filterMap fun r =>
    match r.start_ts, r.end_ts with
    | some s, some e => if r.day = d then some (s, e) else none
    | _, _ => none

/-- Spec-side projection: the days of the surviving records, with
multiplicity, in record order. -/
def survivingDays (rows : List IntervalRow) : List String :=
  rows.filterMap fun r =>
    match r.start_ts, r.end_ts with
    | some _, some _ => some r.day
    | _, _ => none

/-- The fixed stage set `STAGES` of `src/db.py`. -/
def STAGES : List String :=
  ["Separação", "Conferência", "Embalagem", "Contagem de pacotes"]

/-- A row of the `operators` table. -/
structure Operator where
  id : Nat
  name : String
  active : Bool
deriving DecidableEq

/-- A row of the `marketplaces` table. -/
structure Marketplace where
  id : Nat
  name : String
  active : Bool
deriving DecidableEq

/-- A row of the `sessions` table (a batch / "lote"). -/
structure Session where
  id : Nat
  date : String
  operator_id : Nat
  marketplace_id : Nat
  num_orders : Int
  packers_count : Int
  updated_at : Option Int
deriving DecidableEq

/-- A row of the `stage_events` table. -/
structure StageEvent where
  session_id : Nat
  stage : String
  start_time : Option Int
  end_time : Option Int
deriving DecidableEq

/-- The SQLite database: the tables the verified code touches. Every
connection runs `PRAGMA foreign_keys = ON`, so the schema's FOREIGN KEY
constraints (`sessions.operator_id → operators.id`,
`sessions.marketplace_id → marketplaces.id`,
`stage_events.session_id → sessions.id`) are enforced on every insert. -/
structure DBState where
  operators : List Operator
  marketplaces : List Marketplace
  sessions : List Session
  events : List StageEvent
deriving DecidableEq

/-- Whether a `sessions` row with this id exists: the FOREIGN KEY target of
`stage_events.session_id`. -/
def sessionExists (db : DBState) (sid : Nat) : Bool :=
  db.sessions.any (fun s => s.id == sid)

/-- Whether an `operators` row with this id exists: the FOREIGN KEY target
of `sessions.operator_id`. -/
def operatorExists (db : DBState) (oid : Nat) : Bool :=
  db.operators.any (fun o => o.id == oid)

/-- Whether a `marketplaces` row with this id exists: the FOREIGN KEY
target of `sessions.marketplace_id`. -/
def marketplaceExists (db : DBState) (mid : Nat) : Bool :=
  db.marketplaces.any (fun m => m.id == mid)

/-- `SELECT * FROM stage_events WHERE session_id = ? AND stage = ?` under the
`UNIQUE(session_id, stage)` constraint. -/
def findEvent (db : DBState) (sid : Nat) (stage : String) : Option StageEvent :=
  db.events.find? (fun e => e.session_id == sid && e.stage == stage)

/-- `SELECT * FROM sessions WHERE id = ?` (src/db.py get_session). -/
def getSession (db : DBState) (sid : Nat) : Option Session :=
  db.sessions.find? (fun s => s.id == sid)

/-- The row effect of `INSERT OR IGNORE INTO stage_events(session_id,
stage) VALUES (?,?)`: appends a Pending row unless the key already exists
(`UNIQUE(session_id, stage)`; `OR IGNORE` suppresses that conflict). Its
FOREIGN KEY precondition — a `sessions` row with this id must exist, since
`OR IGNORE` does not cover FOREIGN KEY violations under
`PRAGMA foreign_keys = ON` — is checked by the callers (`start_stage`,
`end_stage`) before this effect is applied. -/
def ensureEventRow (db : DBState) (sid : Nat) (stage : String) : DBState :=
  match findEvent db sid stage with
  | some _ => db
  | none => { db with events := db.events ++ [⟨sid, stage, none, none⟩] }

/-- `UPDATE sessions SET updated_at = ? WHERE id = ?`. -/
def touchSession (db : DBState) (sid : Nat) (now : Int) : DBState :=
  { db with
    sessions := db.sessions.map fun s =>
      if s.id == sid then { s with updated_at := some now } else s }

/-- `src/db.py start_stage`: validate the stage (the invalid-stage
`ValueError` is raised before any connection is opened, so that error
branch carries no state); then the `INSERT OR IGNORE` into `stage_events`
raises `sqlite3.IntegrityError` when no `sessions` row with this id exists
(FOREIGN KEY enforced, `OR IGNORE` does not cover it); otherwise ensure the
row exists, set `start_time = ts, end_time = NULL` (overwriting any prior
end), and touch the session's `updated_at`. -/
def start_stage (db : DBState) (sid : Nat) (stage : String) (ts now : Int) :
    Except String DBState :=
  if stage ∈ STAGES then
    if sessionExists db sid then
      let db1 := ensureEventRow db sid stage
      .ok (touchSession
        { db1 with
          events := db1.events.map fun e =>
            if e.session_id == sid && e.stage == stage then
              { e with start_time := some ts, end_time := none }
            else e }
        sid now)
    else .error "FOREIGN KEY constraint failed"
  else .error ("Invalid stage: " ++ stage)

/-- `src/db.py end_stage`: validate the stage (stateless error as in
`start_stage`); raise `sqlite3.IntegrityError` at the `INSERT OR IGNORE`
when no `sessions` row with this id exists (FOREIGN KEY enforced);
otherwise ensure the row exists, set
`start_time = COALESCE(start_time, ts), end_time = ts`, and touch the
session's `updated_at`. -/
def end_stage (db : DBState) (sid : Nat) (stage : String) (ts now : Int) :
    Except String DBState :=
  if stage ∈ STAGES then
    if sessionExists db sid then
      let db1 := ensureEventRow db sid stage
      .ok (touchSession
        { db1 with
          events := db1.events.map fun e =>
            if e.session_id == sid && e.stage == stage then
              { e with start_time := some (e.start_time.getD ts),
                       end_time := some ts }
            else e }
        sid now)
    else .error "FOREIGN KEY constraint failed"
  else .error ("Invalid stage: " ++ stage)

/-- The fresh `AUTOINCREMENT` id for a new session row. -/
def nextSessionId (db : DBState) : Nat :=
  (db.sessions.map Session.id).foldl max 0 + 1

/-- `src/db.py create_session`: reject `num_orders <= 0` and
`packers_count < 1` in Python before touching the store; then the
`INSERT INTO sessions` raises `sqlite3.IntegrityError` when its FOREIGN
KEYS to `operators` or `marketplaces` dangle; otherwise insert the session
row (with `updated_at` set) and pre-create one Pending `stage_events` row
per stage of `STAGES`, all in one transaction. -/
def create_session (db : DBState) (operator_id marketplace_id : Nat)
    (d : String) (num_orders packers_count : Int) (now : Int) :
    Except String (DBState × Nat) :=
  if num_orders ≤ 0 then
    .error "Quantidade de pedidos deve ser maior que zero para criar um novo lote."
  else if packers_count < 1 then
    .error "Número de empacotadores deve ser pelo menos 1."
  else if operatorExists db operator_id && marketplaceExists db marketplace_id then
    .ok ({ db with
           sessions := db.sessions ++
            [⟨nextSessionId db, d, operator_id, marketplace_id, num_orders,
              packers_count, some now⟩],
           events := db.events ++
            STAGES.map fun g => ⟨nextSessionId db, g, none, none⟩ },
         nextSessionId db)
  else .error "FOREIGN KEY constraint failed"

/-- `src/db.py update_session_orders`: no Python-level validation; the only
guard is the schema's `CHECK (num_orders >= 0)`, modelled as the error
branch. On success the session's `num_orders` and `updated_at` are set. -/
def update_session_orders (db : DBState) (sid : Nat) (n : Int) (now : Int) :
    Except String DBState :=
  if n < 0 then .error "CHECK constraint failed: num_orders >= 0"
  else
    .ok { db with
          sessions := db.sessions.map fun s =>
            if s.id == sid then { s with num_orders := n, updated_at := some now }
            else s }

/-- Python truthiness of the `if operator_id:` / `if packers_count:` filter
guards: `None` and `0` both disable the filter. -/
def optFilterNat (o : Option Nat) (f : Nat → Bool) : Bool :=
  match o with
  | none => true
  | some v => if v = 0 then true else f v

/-- Same truthiness guard for an integer-valued filter. -/
def optFilterInt (o : Option Int) (f : Int → Bool) : Bool :=
  match o with
  | none => true
  | some v => if v = 0 then true else f v

/-- The shared `WHERE s.date BETWEEN ? AND ? [AND s.operator_id = ?]
[AND s.packers_count = ?]` clause of the KPI queries. -/
def sessionInScope (startD endD : String) (op : Option Nat) (pk : Option Int)
    (s : Session) : Bool :=
  strLe startD s.date && strLe s.date endD &&
    optFilterNat op (fun v => s.operator_id == v) &&
    optFilterInt pk (fun v => s.packers_count == v)

/-- Whether a `stage_events` row survives the optional `CASE WHEN e.stage = ?`
restriction. -/
def stageMatches (want : Option String) (e : StageEvent) : Bool :=
  match want with
  | none => true
  | some g => e.stage == g

/-- The non-null start times `MIN(...)` aggregates over for one session. -/
def sessionStartTimes (db : DBState) (sid : Nat) (want : Option String) :
    List Int :=
  db.events.filterMap fun e =>
    if e.session_id == sid && stageMatches want e then e.start_time else none

/-- The non-null end times `MAX(...)` aggregates over for one session. -/
def sessionEndTimes (db : DBState) (sid : Nat) (want : Option String) :
    List Int :=
  db.events.filterMap fun e =>
    if e.session_id == sid && stageMatches want e then e.end_time else none

/-- SQL `MIN`: ignores NULLs, NULL on an empty set. -/
def optMin (l : List Int) : Option Int :=
  l.foldl (fun acc x => match acc with
    | none => some x
    | some m => some (min m x)) none

/-- SQL `MAX`: ignores NULLs, NULL on an empty set. -/
def optMax (l : List Int) : Option Int :=
  l.foldl (fun acc x => match acc with
    | none => some x
    | some m => some (max m x)) none

/-- `ORDER BY day ASC, session_id ASC` of `fetch_session_intervals`. -/
def rowLe (a b : IntervalRow) : Bool :=
  if a.day = b.day then decide (a.session_id ≤ b.session_id)
  else strLe a.day b.day

/-- `src/db.py fetch_session_intervals`: per session in range and filters,
the earliest stage start and latest stage end (optionally restricted to one
stage); sessions lacking either are dropped; rows ordered by day then id. -/
def fetch_session_intervals (db : DBState) (startD endD : String)
    (op : Option Nat) (pk : Option Int) (stage : Option String) :
    List IntervalRow :=
  sortBy rowLe
    ((db.sessions.filter (sessionInScope startD endD op pk)).filterMap fun s =>
      match optMin (sessionStartTimes db s.id stage),
            optMax (sessionEndTimes db s.id stage) with
      | some a, some b => some ⟨s.id, s.date, some a, some b⟩
      | _, _ => none)

/-- `SELECT COALESCE(SUM(s.num_orders), 0) ... WHERE s.date BETWEEN ? AND ?`
with the operator / packers filters, from
`src/kpis.py compute_orders_per_hour_union` (the stage filter does not
apply to this query). -/
def total_orders_in_range (db : DBState) (startD endD : String)
    (op : Option Nat) (pk : Option Int) : Int :=
  ((db.sessions.filter (sessionInScope startD endD op pk)).map
    Session.num_orders).sum

/-- `int(df_union["active_seconds"].sum())` over the union output. -/
def unionTotalSeconds (rows : List IntervalRow) : Int :=
  ((union_active_seconds_by_day rows).map Prod.snd).sum

/-- `src/kpis.py compute_orders_per_hour_union`: returns
`(pedidos_por_hora, active_seconds, total_orders)`; the rate is
`total_orders / (active_seconds / 3600)` (float division modelled on ℚ) and
`0.0` when `active_seconds` is not positive. -/
def compute_orders_per_hour_union (db : DBState) (startD endD : String)
    (op : Option Nat) (pk : Option Int) (stage : Option String) :
    ℚ × Int × Int :=
  let active := unionTotalSeconds (fetch_session_intervals db startD endD op pk stage)
  let orders := total_orders_in_range db startD endD op pk
  (if 0 < active then (orders : ℚ) / ((active : ℚ) / 3600) else 0,
   active, orders)

/-- Python 3's builtin `round` (banker's rounding, halves to even), which
`int(round(x))` applies to the day average in
`src/kpis.py card_avg_daily_total_time`. -/
def pyRound (q : ℚ) : ℤ :=
  if q - ⌊q⌋ < 1/2 then ⌊q⌋
  else if (1 : ℚ)/2 < q - ⌊q⌋ then ⌊q⌋ + 1
  else if ⌊q⌋ % 2 = 0 then ⌊q⌋ else ⌊q⌋ + 1

/-- `src/kpis.py card_avg_daily_total_time`: `none` models the early-return
branch that renders the zero metric "00:00:00" on an empty union output;
otherwise the rounded mean of the per-day active seconds, taken over
exactly the days present in the union output. -/
def card_avg_daily_total_time (db : DBState) (startD endD : String)
    (op : Option Nat) (pk : Option Int) (stage : Option String) :
    Option Int :=
  let u := union_active_seconds_by_day
    (fetch_session_intervals db startD endD op pk stage)
  if u.isEmpty then none
  else some (pyRound (((u.map Prod.snd).sum : ℚ) / (u.length : ℚ)))

/-- `GROUP BY day` summation on an insertion-ordered association list. -/
def addDaySum (acc : List (String × Int)) (d : String) (v : Int) :
    List (String × Int) :=
  match acc with
  | [] => [(d, v)]
  | (d0, w) :: rest =>
    if d0 = d then (d0, w + v) :: rest else (d0, w) :: addDaySum rest d v

/-- Whether the session has any `stage_events` row (the SQL `JOIN` drops
sessions without one). -/
def sessionHasEvents (db : DBState) (sid : Nat) : Bool :=
  db.events.any (fun e => e.session_id == sid)

/-- `src/db.py fetch_daily_end_to_end`: per session in range and filters,
the end-to-end span `MAX(end) - MIN(start)` (0 when either side is NULL),
summed per day with no interval merging, ordered by day. -/
def fetch_daily_end_to_end (db : DBState) (startD endD : String)
    (op : Option Nat) (pk : Option Int) (stage : Option String) :
    List (String × Int) :=
  sortBy dayLe
    (((db.sessions.filter (sessionInScope startD endD op pk)).filterMap fun s =>
        if sessionHasEvents db s.id then
          some (s.date,
            match optMin (sessionStartTimes db s.id stage),
                  optMax (sessionEndTimes db s.id stage) with
            | some a, some b => b - a
            | _, _ => 0)
        else none).foldl (fun acc p => addDaySum acc p.1 p.2) [])

/-- Concrete store for the overlap scenarios of the spec: two same-day
batches, 09:00–10:00 (60 orders) and 09:30–10:30 (40 orders), timestamps in
seconds from midnight of 2024-03-01. -/
def overlapDB : DBState :=
  { operators := [⟨1, "Ana", true⟩],
    marketplaces := [⟨1, "Shopee", true⟩],
    sessions :=
      [⟨1, "2024-03-01", 1, 1, 60, 2, none⟩,
       ⟨2, "2024-03-01", 1, 1, 40, 2, none⟩],
    events :=
      [⟨1, "Separação", some 32400, some 36000⟩,
       ⟨2, "Separação", some 34200, some 37800⟩] }

/-- Concrete store with activity on 2 of the 5 days 2024-03-01..05:
one hour on 03-01 and two hours on 03-03. -/
def sparseDB : DBState :=
  { operators := [⟨1, "Ana", true⟩],
    marketplaces := [⟨1, "Shopee", true⟩],
    sessions :=
      [⟨1, "2024-03-01", 1, 1, 10, 2, none⟩,
       ⟨2, "2024-03-03", 1, 1, 20, 2, none⟩],
    events :=
      [⟨1, "Separação", some 0, some 3600⟩,
       ⟨2, "Separação", some 0, some 7200⟩] }

/-- The empty store. -/
def emptyDB : DBState :=
  { operators := [], marketplaces := [], sessions := [], events := [] }

/-- A store with one operator and one marketplace whose single session has
a Completed "Separação" stage and no other stage rows. -/
def completedDB : DBState :=
  { operators := [⟨1, "Ana", true⟩],
    marketplaces := [⟨1, "Shopee", true⟩],
    sessions := [⟨1, "2024-03-01", 1, 1, 5, 2, none⟩],
    events := [⟨1, "Separação", some 100, some 200⟩] }

/-- Association-list lookup on the grouped days, defaulting to `[]`. -/
def lookupDay (acc : List (String × List (Int × Int))) (d : String) :
    List (Int × Int) :=
  match acc with
  | [] => []
  | (d0, ivs) :: rest => if d0 = d then ivs else lookupDay rest d

theorem insertBy_perm {α : Type} (le : α → α → Bool) (x : α) (l : List α) :
    (insertBy le x l).Perm (x :: l) := by
  induction l with
  | nil => simp [insertBy]
  | cons y ys ih =>
    by_cases h : le y x
    · simpa [insertBy, h] using
        (ih.cons y).trans (List.Perm.swap x y ys)
    · simp [insertBy, h]

theorem foldl_insertBy_perm {α : Type} (le : α → α → Bool) :
    ∀ (l acc : List α),
      (l.foldl (fun a x => insertBy le x a) acc).Perm (acc ++ l)
  | [], acc => by simp
  | x :: l, acc => by
    have ih := foldl_insertBy_perm le l (insertBy le x acc)
    simp only [List.foldl_cons]
    refine ih.trans ?_
    have h1 : (insertBy le x acc ++ l).Perm ((x :: acc) ++ l) :=
      (insertBy_perm le x acc).append_right l
    refine h1.trans ?_
    simpa using List.perm_middle.symm

theorem sortBy_perm {α : Type} (le : α → α → Bool) (l : List α) :
    (sortBy le l).Perm l := by
  simpa [sortBy] using foldl_insertBy_perm le l []

theorem insertBy_pairwise {α : Type} (le : α → α → Bool)
    (htrans : ∀ a b c, le a b = true → le b c = true → le a c = true)
    (htotal : ∀ a b, le a b = true ∨ le b a = true)
    (x : α) (l : List α) (hl : l.Pairwise (fun a b => le a b = true)) :
    (insertBy le x l).Pairwise (fun a b => le a b = true) := by
  induction l with
  | nil => simp [insertBy]
  | cons y ys ih =>
    rcases hl with _ | ⟨hy, hys⟩
    by_cases h : le y x
    · rw [insertBy, if_pos h]
      refine List.Pairwise.cons ?_ (ih hys)
      intro z hz
      have hz2 := (insertBy_perm le x ys).mem_iff.mp hz
      rcases List.mem_cons.mp hz2 with rfl | hz3
      · exact h
      · exact hy z hz3
    · have hxy : le x y = true := by
        rcases htotal x y with h1 | h1
        · exact h1
        · exact absurd h1 h
      rw [insertBy, if_neg h]
      refine List.Pairwise.cons ?_ (List.Pairwise.cons hy hys)
      intro z hz
      rcases List.mem_cons.mp hz with rfl | hz2
      · exact hxy
      · exact htrans x y z hxy (hy z hz2)

theorem foldl_insertBy_pairwise {α : Type} (le : α → α → Bool)
    (htrans : ∀ a b c, le a b = true → le b c = true → le a c = true)
    (htotal : ∀ a b, le a b = true ∨ le b a = true) :
    ∀ (l acc : List α), acc.Pairwise (fun a b => le a b = true) →
      (l.foldl (fun a x => insertBy le x a) acc).Pairwise
        (fun a b => le a b = true)
  | [], acc, hacc => hacc
  | x :: l, acc, hacc => by
    simp only [List.foldl_cons]
    exact foldl_insertBy_pairwise le htrans htotal l _
      (insertBy_pairwise le htrans htotal x acc hacc)

theorem sortBy_pairwise {α : Type} (le : α → α → Bool)
    (htrans : ∀ a b c, le a b = true → le b c = true → le a c = true)
    (htotal : ∀ a b, le a b = true ∨ le b a = true) (l : List α) :
    (sortBy le l).Pairwise (fun a b => le a b = true) :=
  foldl_insertBy_pairwise le htrans htotal l [] (List.Pairwise.nil)

theorem sortByStart_perm (ivs : List (Int × Int)) :
    (sortByStart ivs).Perm ivs :=
  sortBy_perm startLe ivs

theorem sortByStart_sorted (ivs : List (Int × Int)) :
    (sortByStart ivs).Pairwise (fun a b => a.1 ≤ b.1) := by
  have h := sortBy_pairwise startLe
    (fun a b c hab hbc => by
      simp only [startLe, decide_eq_true_eq] at *; omega)
    (fun a b => by
      simp only [startLe, decide_eq_true_eq]; omega)
    ivs
  exact h.imp (fun hab => by
    simpa [startLe, decide_eq_true_eq] using hab)

theorem addToDay_keys (acc : List (String × List (Int × Int)))
    (d : String) (iv : Int × Int) :
    (addToDay acc d iv).map Prod.fst =
      if d ∈ acc.map Prod.fst then acc.map Prod.fst
      else acc.map Prod.fst ++ [d] := by
  induction acc with
  | nil => simp [addToDay]
  | cons p rest ih =>
    obtain ⟨d0, ivs⟩ := p
    by_cases h0 : d0 = d
    · rw [addToDay, if_pos h0]
      have hd : d ∈ (((d0, ivs) :: rest).map Prod.fst) := by
        simp [h0.symm]
      rw [if_pos hd]
      simp
    · rw [addToDay, if_neg h0]
      have hne : ¬ d = d0 := fun h => h0 h.symm
      by_cases hmem : d ∈ rest.map Prod.fst
      · have hd : d ∈ (((d0, ivs) :: rest).map Prod.fst) := by
          simp [hmem]
        rw [if_pos hd]
        simp only [List.map_cons]
        rw [ih, if_pos hmem]
      · have hd : ¬ d ∈ (((d0, ivs) :: rest).map Prod.fst) := by
          simp [hne, hmem]
        rw [if_neg hd]
        simp only [List.map_cons, List.cons_append]
        rw [ih, if_neg hmem]

theorem addToDay_keys_mem (acc : List (String × List (Int × Int)))
    (d : String) (iv : Int × Int) (x : String) :
    x ∈ (addToDay acc d iv).map Prod.fst ↔
      x ∈ acc.map Prod.fst ∨ x = d := by
  rw [addToDay_keys]
  by_cases hmem : d ∈ acc.map Prod.fst
  · rw [if_pos hmem]
    constructor
    · exact Or.inl
    · rintro (h | rfl)
      · exact h
      · exact hmem
  · rw [if_neg hmem]
    simp

theorem addToDay_keys_nodup (acc : List (String × List (Int × Int)))
    (d : String) (iv : Int × Int)
    (hacc : (acc.map Prod.fst).Nodup) :
    ((addToDay acc d iv).map Prod.fst).Nodup := by
  rw [addToDay_keys]
  by_cases hmem : d ∈ acc.map Prod.fst
  · rw [if_pos hmem]; exact hacc
  · rw [if_neg hmem]
    simp [List.nodup_append, hacc, hmem]

theorem addToDay_lookup (acc : List (String × List (Int × Int)))
    (d : String) (iv : Int × Int) (x : String) :
    lookupDay (addToDay acc d iv) x =
      if x = d then lookupDay acc x ++ [iv] else lookupDay acc x := by
  induction acc with
  | nil =>
    by_cases hxd : x = d
    · rw [if_pos hxd, hxd]
      simp [addToDay, lookupDay]
    · rw [if_neg hxd]
      have : ¬ d = x := fun h => hxd h.symm
      simp [addToDay, lookupDay, this]
  | cons p rest ih =>
    obtain ⟨d0, ivs⟩ := p
    by_cases h0 : d0 = d
    · rw [addToDay, if_pos h0]
      by_cases hx : d0 = x
      · rw [lookupDay, if_pos hx, lookupDay, if_pos hx,
          if_pos (hx.symm.trans h0)]
      · rw [lookupDay, if_neg hx, lookupDay, if_neg hx]
        have hxd : ¬ x = d := fun h => hx ((h.trans h0.symm).symm)
        rw [if_neg hxd]
    · rw [addToDay, if_neg h0]
      by_cases hx : d0 = x
      · have hxd : ¬ x = d := fun h => h0 (hx.trans h)
        rw [lookupDay, if_pos hx, if_neg hxd, lookupDay, if_pos hx]
      · rw [lookupDay, if_neg hx, ih]
        by_cases hxd : x = d
        · rw [if_pos hxd, if_pos hxd, lookupDay, if_neg hx]
        · rw [if_neg hxd, if_neg hxd, lookupDay, if_neg hx]

theorem foldl_groupStep_lookup :
    ∀ (rows : List IntervalRow) (acc : List (String × List (Int × Int)))
      (x : String),
      lookupDay (rows.foldl groupStep acc) x =
        lookupDay acc x ++ survivingIntervals rows x
  | [], acc, x => by simp [survivingIntervals]
  | r :: rows, acc, x => by
    rw [List.foldl_cons]
    rw [foldl_groupStep_lookup rows (groupStep acc r) x]
    have hsurv : survivingIntervals (r :: rows) x =
        (match r.start_ts, r.end_ts with
          | some s, some e =>
            if r.day = x then (s, e) :: survivingIntervals rows x
            else survivingIntervals rows x
          | _, _ => survivingIntervals rows x) := by
      cases hs : r.start_ts with
      | none => simp [survivingIntervals, List.filterMap_cons, hs]
      | some s =>
        cases he : r.end_ts with
        | none => simp [survivingIntervals, List.filterMap_cons, hs, he]
        | some e =>
          by_cases hd : r.day = x
          · simp [survivingIntervals, List.filterMap_cons, hs, he, hd]
          · simp [survivingIntervals, List.filterMap_cons, hs, he, hd]
    rw [hsurv]
    cases hs : r.start_ts with
    | none => simp [groupStep, hs]
    | some s =>
      cases he : r.end_ts with
      | none => simp [groupStep, hs, he]
      | some e =>
        simp only [groupStep, hs, he]
        rw [addToDay_lookup]
        by_cases hd : x = r.day
        · rw [if_pos hd, if_pos (by rw [hd])]
          simp
        · rw [if_neg hd, if_neg (fun h => hd h.symm)]

theorem foldl_groupStep_keys_mem :
    ∀ (rows : List IntervalRow) (acc : List (String × List (Int × Int)))
      (x : String),
      x ∈ (rows.foldl groupStep acc).map Prod.fst ↔
        x ∈ acc.map Prod.fst ∨ x ∈ survivingDays rows
  | [], acc, x => by simp [survivingDays]
  | r :: rows, acc, x => by
    rw [List.foldl_cons]
    rw [foldl_groupStep_keys_mem rows (groupStep acc r) x]
    have hdays : survivingDays (r :: rows) =
        (match r.start_ts, r.end_ts with
          | some _, some _ => r.day :: survivingDays rows
          | _, _ => survivingDays rows) := by
      cases hs : r.start_ts with
      | none => simp [survivingDays, List.filterMap_cons, hs]
      | some s =>
        cases he : r.end_ts with
        | none => simp [survivingDays, List.filterMap_cons, hs, he]
        | some e => simp [survivingDays, List.filterMap_cons, hs, he]
    rw [hdays]
    cases hs : r.start_ts with
    | none => simp [groupStep, hs]
    | some s =>
      cases he : r.end_ts with
      | none => simp [groupStep, hs, he]
      | some e =>
        simp only [groupStep, hs, he, List.mem_cons]
        rw [addToDay_keys_mem]
        tauto

theorem foldl_groupStep_keys_nodup :
    ∀ (rows : List IntervalRow) (acc : List (String × List (Int × Int))),
      (acc.map Prod.fst).Nodup →
      ((rows.foldl groupStep acc).map Prod.fst).Nodup
  | [], acc, hacc => hacc
  | r :: rows, acc, hacc => by
    rw [List.foldl_cons]
    refine foldl_groupStep_keys_nodup rows (groupStep acc r) ?_
    cases hs : r.start_ts with
    | none => simpa [groupStep, hs] using hacc
    | some s =>
      cases he : r.end_ts with
      | none => simpa [groupStep, hs, he] using hacc
      | some e =>
        simp only [groupStep, hs, he]
        exact addToDay_keys_nodup acc r.day (s, e) hacc

theorem groupByDay_lookup (rows : List IntervalRow) (x : String) :
    lookupDay (groupByDay rows) x = survivingIntervals rows x := by
  simpa [lookupDay] using foldl_groupStep_lookup rows [] x

theorem groupByDay_keys_mem (rows : List IntervalRow) (x : String) :
    x ∈ (groupByDay rows).map Prod.fst ↔ x ∈ survivingDays rows := by
  simpa using foldl_groupStep_keys_mem rows [] x

theorem groupByDay_keys_nodup (rows : List IntervalRow) :
    ((groupByDay rows).map Prod.fst).Nodup :=
  foldl_groupStep_keys_nodup rows [] (by simp)

theorem lookup_eq_of_mem_of_nodup :
    ∀ (acc : List (String × List (Int × Int))) (d : String)
      (v : List (Int × Int)),
      (acc.map Prod.fst).Nodup → (d, v) ∈ acc → lookupDay acc d = v
  | [], d, v, _, hmem => by simp at hmem
  | (d0, w) :: rest, d, v, hnd, hmem => by
    rw [List.map_cons, List.nodup_cons] at hnd
    rcases List.mem_cons.mp hmem with heq | hmem2
    · injection heq with hd hv
      subst hd; subst hv
      simp [lookupDay]
    · have hd0 : ¬ d0 = d := by
        intro h
        subst h
        exact hnd.1 (List.mem_map.mpr ⟨(d0, v), hmem2, rfl⟩)
      rw [lookupDay, if_neg hd0]
      exact lookup_eq_of_mem_of_nodup rest d v hnd.2 hmem2

theorem find?_map_ite {α : Type} (p : α → Bool) (u : α → α)
    (hu : ∀ a, p a = true → p (u a) = true) :
    ∀ l : List α,
      (l.map fun a => if p a then u a else a).find? p =
        (l.find? p).map fun a => if p a then u a else a
  | [] => by simp
  | a :: l => by
    by_cases h : p a = true
    · rw [List.map_cons, if_pos h, List.find?_cons_of_pos _ (hu a h),
        List.find?_cons_of_pos _ h]
      simp [h]
    · have hne : ¬ (p a = true) := h
      rw [List.map_cons, if_neg h, List.find?_cons_of_neg _ hne,
        List.find?_cons_of_neg _ hne]
      exact find?_map_ite p u hu l

theorem find?_append_of_none {α : Type} (p : α → Bool) :
    ∀ (l1 l2 : List α), l1.find? p = none →
      (l1 ++ l2).find? p = l2.find? p
  | [], l2, _ => by simp
  | a :: l1, l2, h => by
    by_cases ha : p a = true
    · rw [List.find?_cons_of_pos _ ha] at h
      exact absurd h (by simp)
    · have hne : ¬ (p a = true) := ha
      rw [List.find?_cons_of_neg _ hne] at h
      rw [List.cons_append, List.find?_cons_of_neg _ hne]
      exact find?_append_of_none p l1 l2 h

theorem findEvent_fields (db : DBState) (sid : Nat) (stage : String)
    (e : StageEvent) (h : findEvent db sid stage = some e) :
    e.session_id = sid ∧ e.stage = stage := by
  have hp := List.find?_some h
  simpa [Bool.and_eq_true, beq_iff_eq] using hp

theorem findEvent_ensure (db : DBState) (sid : Nat) (stage : String) :
    findEvent (ensureEventRow db sid stage) sid stage =
      some ((findEvent db sid stage).getD ⟨sid, stage, none, none⟩) := by
  cases h : findEvent db sid stage with
  | some e => rw [ensureEventRow, h]; simpa using h
  | none =>
    rw [ensureEventRow, h]
    simp only [findEvent] at h ⊢
    rw [find?_append_of_none _ _ _ h]
    simp

theorem sweep_merges (cs ce s e : Int) (rest : List (Int × Int))
    (h : s ≤ ce) :
    sweep cs ce ((s, e) :: rest) = sweep cs (max ce e) rest := by
  rw [sweep, if_pos h]
  have hmax : (if ce < e then e else ce) = max ce e := by
    rcases lt_or_le ce e with h1 | h1
    · rw [if_pos h1, max_eq_right h1.le]
    · rw [if_neg (not_lt.mpr h1), max_eq_left h1]
  rw [hmax]

theorem sweep_closes (cs ce s e : Int) (rest : List (Int × Int))
    (h : ¬ s ≤ ce) :
    sweep cs ce ((s, e) :: rest) = (cs, ce) :: sweep s e rest := by
  rw [sweep, if_neg h]

theorem union_keys_mem (rows : List IntervalRow) (d : String) :
    d ∈ (union_active_seconds_by_day rows).map Prod.fst ↔
      d ∈ survivingDays rows := by
  have hperm : ((union_active_seconds_by_day rows).map Prod.fst).Perm
      (((groupByDay rows).map fun p => (p.1, dayActiveSeconds p.2)).map
        Prod.fst) :=
    (sortBy_perm dayLe _).map Prod.fst
  rw [hperm.mem_iff, List.map_map]
  have hcomp :
      (Prod.fst ∘ fun p : String × List (Int × Int) =>
        (p.1, dayActiveSeconds p.2)) = Prod.fst := rfl
  rw [hcomp]
  exact groupByDay_keys_mem rows d

theorem union_keys_nodup (rows : List IntervalRow) :
    ((union_active_seconds_by_day rows).map Prod.fst).Nodup := by
  have hperm : ((union_active_seconds_by_day rows).map Prod.fst).Perm
      (((groupByDay rows).map fun p => (p.1, dayActiveSeconds p.2)).map
        Prod.fst) :=
    (sortBy_perm dayLe _).map Prod.fst
  rw [hperm.nodup_iff, List.map_map]
  have hcomp :
      (Prod.fst ∘ fun p : String × List (Int × Int) =>
        (p.1, dayActiveSeconds p.2)) = Prod.fst := rfl
  rw [hcomp]
  exact groupByDay_keys_nodup rows

theorem union_mem_value (rows : List IntervalRow) (d : String) (v : Int)
    (h : (d, v) ∈ union_active_seconds_by_day rows) :
    v = dayActiveSeconds (survivingIntervals rows d) := by
  have hperm := sortBy_perm dayLe
    ((groupByDay rows).map fun p => (p.1, dayActiveSeconds p.2))
  rw [union_active_seconds_by_day] at h
  have h2 := hperm.mem_iff.mp h
  rcases List.mem_map.mp h2 with ⟨p, hp, hpe⟩
  injection hpe with h1 hv
  have hlk := lookup_eq_of_mem_of_nodup (groupByDay rows) p.1 p.2
    (groupByDay_keys_nodup rows) (by simpa using hp)
  rw [groupByDay_lookup] at hlk
  rw [← hv, ← h1, ← hlk]

theorem union_length (rows : List IntervalRow) :
    (union_active_seconds_by_day rows).length =
      (survivingDays rows).dedup.length := by
  have hperm := sortBy_perm dayLe
    ((groupByDay rows).map fun p => (p.1, dayActiveSeconds p.2))
  have h1 : (union_active_seconds_by_day rows).length =
      ((groupByDay rows).map Prod.fst).length := by
    rw [union_active_seconds_by_day, hperm.length_eq]
    simp
  have hA : ((groupByDay rows).map Prod.fst).Nodup :=
    groupByDay_keys_nodup rows
  have hB : (survivingDays rows).dedup.Nodup := List.nodup_dedup _
  have hfin : ((groupByDay rows).map Prod.fst).toFinset =
      (survivingDays rows).dedup.toFinset := by
    ext x
    simp only [List.mem_toFinset, List.mem_dedup]
    exact groupByDay_keys_mem rows x
  have hcard := congrArg Finset.card hfin
  rw [List.toFinset_card_of_nodup hA, List.toFinset_card_of_nodup hB] at hcard
  rw [h1, hcard]

theorem pyRound_intCast (n : ℤ) : pyRound (n : ℚ) = n := by
  rw [pyRound]
  rw [Int.floor_intCast]
  norm_num

theorem findEvent_after_update (db : DBState) (sid : Nat) (stage : String)
    (u : StageEvent → StageEvent)
    (hu : ∀ e, (u e).session_id = e.session_id ∧ (u e).stage = e.stage)
    (now : Int) :
    findEvent (touchSession
      { ensureEventRow db sid stage with
        events := (ensureEventRow db sid stage).events.map fun e =>
          if e.session_id == sid && e.stage == stage then u e else e }
      sid now) sid stage =
    some (u ((findEvent db sid stage).getD ⟨sid, stage, none, none⟩)) := by
  have hq : ∀ e : StageEvent,
      (e.session_id == sid && e.stage == stage) = true →
      ((u e).session_id == sid && (u e).stage == stage) = true := by
    intro e he
    simp only [Bool.and_eq_true, beq_iff_eq] at he ⊢
    exact ⟨(hu e).1.trans he.1, (hu e).2.trans he.2⟩
  show ((ensureEventRow db sid stage).events.map fun e =>
      if e.session_id == sid && e.stage == stage then u e else e).find?
        (fun e => e.session_id == sid && e.stage == stage) = _
  rw [find?_map_ite (fun e => e.session_id == sid && e.stage == stage) u hq]
  show ((findEvent (ensureEventRow db sid stage) sid stage).map fun e =>
      if e.session_id == sid && e.stage == stage then u e else e) = _
  rw [findEvent_ensure]
  have hg : ((findEvent db sid stage).getD
        ⟨sid, stage, none, none⟩).session_id = sid ∧
      ((findEvent db sid stage).getD ⟨sid, stage, none, none⟩).stage = stage := by
    cases h : findEvent db sid stage with
    | none => simp
    | some e => simpa using findEvent_fields db sid stage e h
  simp [hg.1, hg.2]

theorem card_avg_eq_of_ne (db : DBState) (sD eD : String) (op : Option Nat)
    (pk : Option Int) (st : Option String)
    (h : union_active_seconds_by_day
      (fetch_session_intervals db sD eD op pk st) ≠ []) :
    card_avg_daily_total_time db sD eD op pk st =
      some (pyRound
        ((((union_active_seconds_by_day
            (fetch_session_intervals db sD eD op pk st)).map Prod.snd).sum : ℚ) /
          ((union_active_seconds_by_day
            (fetch_session_intervals db sD eD op pk st)).length : ℚ))) := by
  rcases hu : union_active_seconds_by_day
      (fetch_session_intervals db sD eD op pk st) with _ | ⟨p, rest⟩
  · exact absurd hu h
  · simp [card_avg_daily_total_time, hu]

theorem card_avg_eq_of_nil (db : DBState) (sD eD : String) (op : Option Nat)
    (pk : Option Int) (st : Option String)
    (h : union_active_seconds_by_day
      (fetch_session_intervals db sD eD op pk st) = []) :
    card_avg_daily_total_time db sD eD op pk st = none := by
  simp [card_avg_daily_total_time, h]

/-- C1: the interval union engine (`_union_active_seconds_by_day`) groups the
records with non-null start and end by calendar day; the output days are
exactly the days with at least one surviving record, without repetition;
each output value is the sum of `end - start` over the merged intervals of
that day's surviving intervals sorted by start ascending; the sort is a
permutation that orders starts ascending; and the sweep merges the next
interval `(s, e)` exactly when `s ≤ cur_end` (extending `cur_end` to
`max cur_end e`), otherwise closing the current merged interval. -/
theorem C1_union_engine (rows : List IntervalRow) :
    ((union_active_seconds_by_day rows).map Prod.fst).Nodup ∧
    (∀ d, d ∈ (union_active_seconds_by_day rows).map Prod.fst ↔
      d ∈ survivingDays rows) ∧
    (∀ d v, (d, v) ∈ union_active_seconds_by_day rows →
      v = dayActiveSeconds (survivingIntervals rows d)) ∧
    (∀ ivs : List (Int × Int), (sortByStart ivs).Perm ivs ∧
      (sortByStart ivs).Pairwise (fun a b => a.1 ≤ b.1)) ∧
    (∀ (cs ce s e : Int) (rest : List (Int × Int)),
      (s ≤ ce → sweep cs ce ((s, e) :: rest) = sweep cs (max ce e) rest) ∧
      (¬ s ≤ ce → sweep cs ce ((s, e) :: rest) = (cs, ce) :: sweep s e rest)) :=
  ⟨union_keys_nodup rows,
   fun d => union_keys_mem rows d,
   fun d v h => union_mem_value rows d v h,
   fun ivs => ⟨sortByStart_perm ivs, sortByStart_sorted ivs⟩,
   fun cs ce s e rest =>
     ⟨fun h => sweep_merges cs ce s e rest h,
      fun h => sweep_closes cs ce s e rest h⟩⟩

/-- C2 (counterexample to the claim as frozen): with A = (0, 10) and the
zero-duration B = (5, 5), B starts strictly before A ends (an overlap in
the sense of the claim), the engine merges them into the single interval
(0, 10), but the merged duration is equal to — not strictly less than — the
naive sum of the two durations. -/
theorem C2_strictness_cex :
    ((5 : Int) < 10) ∧
    mergeIntervals (sortByStart [((0 : Int), (10 : Int)), (5, 5)]) =
      [(0, 10)] ∧
    dayActiveSeconds [((0 : Int), (10 : Int)), (5, 5)] =
      ((10 : Int) - 0) + ((5 : Int) - 5) ∧
    ¬ dayActiveSeconds [((0 : Int), (10 : Int)), (5, 5)] <
        ((10 : Int) - 0) + ((5 : Int) - 5) := by decide

/-- C2 (amended): for two same-day well-formed intervals A = (sA, eA) and
B = (sB, eB) with A first in start order and B starting at or before the
end of A (overlap or exact adjacency), the engine produces the single
merged interval (sA, max eA eB), whose duration is
`max eA eB - min sA sB`; that duration is at most the naive sum of the two
durations, strictly less when B overlaps with positive duration
(`sB < eA` and `sB < eB`), and equal for exact adjacency (`sB = eA`). -/
theorem C2_overlap_adjacency_merge (sA eA sB eB : Int) (hA : sA ≤ eA)
    (hB : sB ≤ eB) (hord : sA ≤ sB) (hmerge : sB ≤ eA) :
    mergeIntervals (sortByStart [(sA, eA), (sB, eB)]) =
      [(sA, max eA eB)] ∧
    dayActiveSeconds [(sA, eA), (sB, eB)] = max eA eB - min sA sB ∧
    dayActiveSeconds [(sA, eA), (sB, eB)] ≤ (eA - sA) + (eB - sB) ∧
    (sB < eA → sB < eB →
      dayActiveSeconds [(sA, eA), (sB, eB)] < (eA - sA) + (eB - sB)) ∧
    (sB = eA →
      dayActiveSeconds [(sA, eA), (sB, eB)] = (eA - sA) + (eB - sB)) := by
  have hsort : sortByStart [(sA, eA), (sB, eB)] = [(sA, eA), (sB, eB)] := by
    simp [sortByStart, sortBy, insertBy, startLe, hord]
  have hmax : (if eA < eB then eB else eA) = max eA eB := by
    rcases lt_or_le eA eB with h1 | h1
    · rw [if_pos h1, max_eq_right h1.le]
    · rw [if_neg (not_lt.mpr h1), max_eq_left h1]
  have hmerged : mergeIntervals (sortByStart [(sA, eA), (sB, eB)]) =
      [(sA, max eA eB)] := by
    rw [hsort, mergeIntervals, sweep, if_pos hmerge, hmax, sweep]
  have hday : dayActiveSeconds [(sA, eA), (sB, eB)] = max eA eB - sA := by
    rw [dayActiveSeconds, hmerged]
    simp
  have hmin : min sA sB = sA := min_eq_left hord
  refine ⟨hmerged, by rw [hday, hmin], ?_, ?_, ?_⟩
  · rw [hday]
    rcases le_total eA eB with h1 | h1
    · rw [max_eq_right h1]; omega
    · rw [max_eq_left h1]; omega
  · intro h1 h2
    rw [hday]
    rcases le_total eA eB with h3 | h3
    · rw [max_eq_right h3]; omega
    · rw [max_eq_left h3]; omega
  · intro h1
    rw [hday, max_eq_right (h1 ▸ hB)]
    omega

/-- Witness for C2 at A = (0, 10), B = (4, 12): a genuine positive-duration
overlap where the merged duration 12 is strictly below the naive 18. -/
theorem C2_overlap_adjacency_merge_witness :
    mergeIntervals (sortByStart [((0 : Int), (10 : Int)), (4, 12)]) =
      [(0, max 10 12)] ∧
    dayActiveSeconds [((0 : Int), (10 : Int)), (4, 12)] =
      max 10 12 - min 0 4 ∧
    dayActiveSeconds [((0 : Int), (10 : Int)), (4, 12)] ≤
      ((10 : Int) - 0) + ((12 : Int) - 4) ∧
    ((4 : Int) < 10 → (4 : Int) < 12 →
      dayActiveSeconds [((0 : Int), (10 : Int)), (4, 12)] <
        ((10 : Int) - 0) + ((12 : Int) - 4)) ∧
    ((4 : Int) = 10 →
      dayActiveSeconds [((0 : Int), (10 : Int)), (4, 12)] =
        ((10 : Int) - 0) + ((12 : Int) - 4)) :=
  C2_overlap_adjacency_merge 0 10 4 12 (by decide) (by decide) (by decide)
    (by decide)

/-- C3: `compute_orders_per_hour_union` returns the filtered order total,
the union active seconds, and their rate `orders / (active / 3600)` with 0
on zero active time; on the spec scenario (two batches of one day,
09:00–10:00 with 60 orders and 09:30–10:30 with 40 orders) the union gives
5400 s and the rate 200/3 ≈ 66.67, which rounds to 67. -/
theorem C3_orders_per_hour_union :
    (∀ (db : DBState) (sD eD : String) (op : Option Nat) (pk : Option Int)
        (st : Option String),
      (compute_orders_per_hour_union db sD eD op pk st).2.2 =
        total_orders_in_range db sD eD op pk ∧
      (compute_orders_per_hour_union db sD eD op pk st).2.1 =
        unionTotalSeconds (fetch_session_intervals db sD eD op pk st) ∧
      ((compute_orders_per_hour_union db sD eD op pk st).2.1 = 0 →
        (compute_orders_per_hour_union db sD eD op pk st).1 = 0) ∧
      (0 < (compute_orders_per_hour_union db sD eD op pk st).2.1 →
        (compute_orders_per_hour_union db sD eD op pk st).1 =
          ((compute_orders_per_hour_union db sD eD op pk st).2.2 : ℚ) /
            (((compute_orders_per_hour_union db sD eD op pk st).2.1 : ℚ) /
              3600))) ∧
    ((compute_orders_per_hour_union overlapDB "2024-03-01" "2024-03-01"
        none none none).2.1 = 5400 ∧
     (compute_orders_per_hour_union overlapDB "2024-03-01" "2024-03-01"
        none none none).2.2 = 100 ∧
     (compute_orders_per_hour_union overlapDB "2024-03-01" "2024-03-01"
        none none none).1 = 200 / 3 ∧
     pyRound (200 / 3 : ℚ) = 67) := by
  constructor
  · intro db sD eD op pk st
    refine ⟨rfl, rfl, ?_, ?_⟩
    · intro h
      have h2 : unionTotalSeconds
          (fetch_session_intervals db sD eD op pk st) = 0 := h
      show (if 0 < unionTotalSeconds
            (fetch_session_intervals db sD eD op pk st)
          then (total_orders_in_range db sD eD op pk : ℚ) /
            ((unionTotalSeconds
              (fetch_session_intervals db sD eD op pk st) : ℚ) / 3600)
          else 0) = 0
      rw [h2]
      norm_num
    · intro h
      have h2 : 0 < unionTotalSeconds
          (fetch_session_intervals db sD eD op pk st) := h
      show (if 0 < unionTotalSeconds
            (fetch_session_intervals db sD eD op pk st)
          then (total_orders_in_range db sD eD op pk : ℚ) /
            ((unionTotalSeconds
              (fetch_session_intervals db sD eD op pk st) : ℚ) / 3600)
          else 0) = _
      rw [if_pos h2]
      rfl
  · have h1 : unionTotalSeconds (fetch_session_intervals overlapDB
        "2024-03-01" "2024-03-01" none none none) = 5400 := by decide
    have h2 : total_orders_in_range overlapDB "2024-03-01" "2024-03-01"
        none none = 100 := by decide
    refine ⟨h1, h2, ?_, ?_⟩
    · show (if 0 < unionTotalSeconds (fetch_session_intervals overlapDB
            "2024-03-01" "2024-03-01" none none none)
          then (total_orders_in_range overlapDB "2024-03-01" "2024-03-01"
              none none : ℚ) /
            ((unionTotalSeconds (fetch_session_intervals overlapDB
              "2024-03-01" "2024-03-01" none none none) : ℚ) / 3600)
          else 0) = 200 / 3
      rw [h1, h2]
      norm_num
    · have hfl : ⌊(200 / 3 : ℚ)⌋ = 66 := by
        rw [Int.floor_eq_iff]
        norm_num
      rw [pyRound, hfl]
      rw [if_neg (by norm_num), if_pos (by norm_num)]
      norm_num

/-- C4: `card_avg_daily_total_time` renders the zero metric (modelled
`none`) exactly on an empty union output and otherwise the rounded mean of
the per-day active seconds, dividing by the number of days present in the
union output, which equals the number of distinct days having surviving
records; on the scenario with activity on 2 of 5 days the mean divides by
2 (giving 5400 s), and the empty store yields the zero metric. -/
theorem C4_avg_daily_active_time :
    (∀ (db : DBState) (sD eD : String) (op : Option Nat) (pk : Option Int)
        (st : Option String),
      (union_active_seconds_by_day
          (fetch_session_intervals db sD eD op pk st) = [] →
        card_avg_daily_total_time db sD eD op pk st = none) ∧
      (union_active_seconds_by_day
          (fetch_session_intervals db sD eD op pk st) ≠ [] →
        card_avg_daily_total_time db sD eD op pk st =
          some (pyRound
            ((((union_active_seconds_by_day
                (fetch_session_intervals db sD eD op pk st)).map
                  Prod.snd).sum : ℚ) /
              ((union_active_seconds_by_day
                (fetch_session_intervals db sD eD op pk st)).length : ℚ)))) ∧
      (union_active_seconds_by_day
          (fetch_session_intervals db sD eD op pk st)).length =
        (survivingDays (fetch_session_intervals db sD eD op pk st)).dedup.length) ∧
    (card_avg_daily_total_time sparseDB "2024-03-01" "2024-03-05"
        none none none = some 5400 ∧
     card_avg_daily_total_time emptyDB "2024-03-01" "2024-03-05"
        none none none = none) := by
  constructor
  · intro db sD eD op pk st
    exact ⟨card_avg_eq_of_nil db sD eD op pk st,
      card_avg_eq_of_ne db sD eD op pk st, union_length _⟩
  · constructor
    · have hu : union_active_seconds_by_day (fetch_session_intervals sparseDB
          "2024-03-01" "2024-03-05" none none none) =
          [("2024-03-01", 3600), ("2024-03-03", 7200)] := by decide
      rw [card_avg_eq_of_ne sparseDB "2024-03-01" "2024-03-05" none none none
        (by rw [hu]; exact List.cons_ne_nil _ _)]
      rw [hu]
      have hq : ((([(("2024-03-01" : String), (3600 : Int)),
          ("2024-03-03", 7200)].map Prod.snd).sum : ℚ) /
            (([(("2024-03-01" : String), (3600 : Int)),
              ("2024-03-03", 7200)].length : ℚ))) = ((5400 : ℤ) : ℚ) := by
        norm_num
      rw [hq, pyRound_intCast]
    · exact card_avg_eq_of_nil emptyDB "2024-03-01" "2024-03-05"
        none none none (by decide)

/-- C5 (the code diverges from this claim): the daily chart series of
`chart_orders_vs_time` comes from `fetch_daily_end_to_end`, which sums the
end-to-end spans of same-day batches without merging; on the two
overlapping batches of `overlapDB` it reports 7200 s for the day while the
union engine reports 5400 s, so the series does not equal the union
output. -/
theorem C5_daily_chart_series_not_union :
    fetch_daily_end_to_end overlapDB "2024-03-01" "2024-03-01"
      none none none = [("2024-03-01", 7200)] ∧
    union_active_seconds_by_day (fetch_session_intervals overlapDB
      "2024-03-01" "2024-03-01" none none none) = [("2024-03-01", 5400)] ∧
    fetch_daily_end_to_end overlapDB "2024-03-01" "2024-03-01"
        none none none ≠
      union_active_seconds_by_day (fetch_session_intervals overlapDB
        "2024-03-01" "2024-03-01" none none none) := by decide

/-- C6: for an existing batch (the FOREIGN KEY on `stage_events.session_id`
makes `end_stage` raise `IntegrityError` for a nonexistent one) and a valid
stage, `end_stage` never errors; the resulting row has `end = ts` and
`start = COALESCE(prior start, ts)`: when the prior start is null (stage
row missing or start unset) both become `ts` — a zero-duration interval,
never negative or undefined — and an existing start is kept. -/
theorem C6_end_stage_zero_duration (db : DBState) (sid : Nat)
    (stage : String) (ts now : Int) (hstage : stage ∈ STAGES)
    (hsid : sessionExists db sid = true) :
    ∃ db2, end_stage db sid stage ts now = Except.ok db2 ∧
      findEvent db2 sid stage = some ⟨sid, stage,
        some (((findEvent db sid stage).bind StageEvent.start_time).getD ts),
        some ts⟩ ∧
      (((findEvent db sid stage).bind StageEvent.start_time) = none →
        findEvent db2 sid stage = some ⟨sid, stage, some ts, some ts⟩) ∧
      (∀ s0,
        ((findEvent db sid stage).bind StageEvent.start_time) = some s0 →
        findEvent db2 sid stage = some ⟨sid, stage, some s0, some ts⟩) := by
  have hfind := findEvent_after_update db sid stage
    (fun e => { e with start_time := some (e.start_time.getD ts),
                       end_time := some ts })
    (fun e => ⟨rfl, rfl⟩) now
  have heq : end_stage db sid stage ts now = Except.ok (touchSession
      { ensureEventRow db sid stage with
        events := (ensureEventRow db sid stage).events.map fun e =>
          if e.session_id == sid && e.stage == stage then
            { e with start_time := some (e.start_time.getD ts),
                     end_time := some ts }
          else e } sid now) := by
    unfold end_stage
    rw [if_pos hstage, if_pos hsid]
  refine ⟨_, heq, ?_, ?_, ?_⟩
  · rw [hfind]
    cases h : findEvent db sid stage with
    | none => simp
    | some e =>
      obtain ⟨a, b, c, d⟩ := e
      have hf := findEvent_fields db sid stage _ h
      simp [hf.1, hf.2]
  · intro h0
    rw [hfind]
    cases h : findEvent db sid stage with
    | none => simp
    | some e =>
      obtain ⟨a, b, c, d⟩ := e
      have hf := findEvent_fields db sid stage _ h
      rw [h] at h0
      simp at h0
      simp [hf.1, hf.2, h0]
  · intro s0 h0
    rw [hfind]
    cases h : findEvent db sid stage with
    | none => rw [h] at h0; simp at h0
    | some e =>
      obtain ⟨a, b, c, d⟩ := e
      have hf := findEvent_fields db sid stage _ h
      rw [h] at h0
      simp at h0
      simp [hf.1, hf.2, h0]

/-- Witness for C6 on `completedDB`, whose session 1 exists but has no
"Embalagem" stage row: ending "Embalagem" with no prior start creates the
row with start = end = 500 (zero duration). -/
theorem C6_end_stage_zero_duration_witness :
    ∃ db2, end_stage completedDB 1 "Embalagem" 500 600 = Except.ok db2 ∧
      findEvent db2 1 "Embalagem" = some ⟨1, "Embalagem",
        some (((findEvent completedDB 1 "Embalagem").bind
          StageEvent.start_time).getD 500), some 500⟩ ∧
      (((findEvent completedDB 1 "Embalagem").bind StageEvent.start_time) =
          none →
        findEvent db2 1 "Embalagem" =
          some ⟨1, "Embalagem", some 500, some 500⟩) ∧
      (∀ s0,
        ((findEvent completedDB 1 "Embalagem").bind StageEvent.start_time) =
          some s0 →
        findEvent db2 1 "Embalagem" =
          some ⟨1, "Embalagem", some s0, some 500⟩) :=
  C6_end_stage_zero_duration completedDB 1 "Embalagem" 500 600 (by decide)
    (by decide)

/-- C7: for an existing batch (the FOREIGN KEY on `stage_events.session_id`
makes `start_stage` raise `IntegrityError` for a nonexistent one) and a
valid stage, `start_stage` never errors and leaves the row with
`start = ts, end = null` regardless of its prior state — reopening a
Completed row and idempotently overwriting an InProgress one. -/
theorem C7_start_stage_restarts (db : DBState) (sid : Nat) (stage : String)
    (ts now : Int) (hstage : stage ∈ STAGES)
    (hsid : sessionExists db sid = true) :
    ∃ db2, start_stage db sid stage ts now = Except.ok db2 ∧
      findEvent db2 sid stage = some ⟨sid, stage, some ts, none⟩ := by
  have hfind := findEvent_after_update db sid stage
    (fun e => { e with start_time := some ts, end_time := none })
    (fun e => ⟨rfl, rfl⟩) now
  have heq : start_stage db sid stage ts now = Except.ok (touchSession
      { ensureEventRow db sid stage with
        events := (ensureEventRow db sid stage).events.map fun e =>
          if e.session_id == sid && e.stage == stage then
            { e with start_time := some ts, end_time := none }
          else e } sid now) := by
    unfold start_stage
    rw [if_pos hstage, if_pos hsid]
  refine ⟨_, heq, ?_⟩
  · rw [hfind]
    cases h : findEvent db sid stage with
    | none => simp
    | some e =>
      obtain ⟨a, b, c, d⟩ := e
      have hf := findEvent_fields db sid stage _ h
      simp [hf.1, hf.2]

/-- Witness for C7 on a store whose "Separação" row is Completed
(start = 100, end = 200): restarting clears the end and sets start = 300. -/
theorem C7_start_stage_restarts_witness :
    ∃ db2, start_stage completedDB 1 "Separação" 300 400 = Except.ok db2 ∧
      findEvent db2 1 "Separação" = some ⟨1, "Separação", some 300, none⟩ :=
  C7_start_stage_restarts completedDB 1 "Separação" 300 400 (by decide)
    (by decide)

/-- C8: `create_session` raises the invalid-batch `ValueError` exactly when
`num_orders ≤ 0` or `packers_count < 1`, before the store is touched (the
error carries no state, so nothing is created); with valid counts but a
dangling operator or marketplace id the FOREIGN KEYS of the
`INSERT INTO sessions` raise `IntegrityError` instead, again creating
nothing; when the counts are valid and both ids exist, it atomically
appends the session row and exactly `STAGES.length = 4` pre-created
StageEvent rows, all Pending. -/
theorem C8_create_session (db : DBState) (op mk : Nat) (d : String)
    (no pc : Int) (now : Int) :
    (no ≤ 0 →
      create_session db op mk d no pc now = Except.error
        "Quantidade de pedidos deve ser maior que zero para criar um novo lote.") ∧
    (0 < no → pc < 1 →
      create_session db op mk d no pc now = Except.error
        "Número de empacotadores deve ser pelo menos 1.") ∧
    (0 < no → 1 ≤ pc →
      (operatorExists db op && marketplaceExists db mk) = false →
      create_session db op mk d no pc now =
        Except.error "FOREIGN KEY constraint failed") ∧
    (0 < no → 1 ≤ pc → operatorExists db op = true →
      marketplaceExists db mk = true →
      create_session db op mk d no pc now = Except.ok
        ({ db with
           sessions := db.sessions ++
            [⟨nextSessionId db, d, op, mk, no, pc, some now⟩],
           events := db.events ++
            STAGES.map fun g => ⟨nextSessionId db, g, none, none⟩ },
         nextSessionId db) ∧
      (STAGES.map fun g =>
        (⟨nextSessionId db, g, none, none⟩ : StageEvent)).length = 4 ∧
      ∀ e ∈ STAGES.map fun g =>
          (⟨nextSessionId db, g, none, none⟩ : StageEvent),
        e.start_time = none ∧ e.end_time = none) := by
  refine ⟨?_, ?_, ?_, ?_⟩
  · intro h0
    unfold create_session
    rw [if_pos h0]
  · intro h1 h2
    unfold create_session
    rw [if_neg (by omega), if_pos h2]
  · intro h1 h2 hfk
    unfold create_session
    rw [if_neg (by omega), if_neg (by omega), if_neg (by rw [hfk]; exact
      Bool.false_ne_true)]
  · intro h1 h2 hop hmk
    refine ⟨?_, by simp [STAGES], ?_⟩
    · unfold create_session
      rw [if_neg (by omega), if_neg (by omega),
        if_pos (by rw [hop, hmk]; exact rfl)]
    · intro e he
      simp only [STAGES, List.map_cons, List.map_nil, List.mem_cons,
        List.mem_singleton] at he
      rcases he with rfl | rfl | rfl | rfl | h
      · exact ⟨rfl, rfl⟩
      · exact ⟨rfl, rfl⟩
      · exact ⟨rfl, rfl⟩
      · exact ⟨rfl, rfl⟩
      · simp at h

/-- Witness for C8: zero orders are rejected with the invalid-batch error
on the empty store. -/
theorem C8_create_session_witness :
    create_session emptyDB 1 1 "2024-03-01" 0 2 7 = Except.error
      "Quantidade de pedidos deve ser maior que zero para criar um novo lote." :=
  (C8_create_session emptyDB 1 1 "2024-03-01" 0 2 7).1 (by decide)

/-- C9: a stage name outside the fixed set makes both `start_stage` and
`end_stage` return the invalid-stage error; the check precedes any
mutation, so the error carries no state and the store is untouched. -/
theorem C9_invalid_stage_rejected (db : DBState) (sid : Nat)
    (stage : String) (ts now : Int) (hstage : stage ∉ STAGES) :
    start_stage db sid stage ts now =
      Except.error ("Invalid stage: " ++ stage) ∧
    end_stage db sid stage ts now =
      Except.error ("Invalid stage: " ++ stage) := by
  constructor
  · unfold start_stage
    rw [if_neg hstage]
  · unfold end_stage
    rw [if_neg hstage]

/-- Witness for C9 with the unrecognized stage name "Faturamento". -/
theorem C9_invalid_stage_rejected_witness :
    start_stage emptyDB 1 "Faturamento" 10 20 =
      Except.error ("Invalid stage: " ++ "Faturamento") ∧
    end_stage emptyDB 1 "Faturamento" 10 20 =
      Except.error ("Invalid stage: " ++ "Faturamento") :=
  C9_invalid_stage_rejected emptyDB 1 "Faturamento" 10 20 (by decide)

/-- C10: `update_session_orders` has no order-count validation beyond the
schema CHECK `num_orders >= 0`: for any existing session and any `n ≥ 0`
(including 0) it succeeds, setting `num_orders = n` and refreshing
`updated_at`. -/
theorem C10_update_orders_unvalidated (db : DBState) (sid : Nat)
    (n now : Int) (s : Session) (hs : getSession db sid = some s)
    (hn : 0 ≤ n) :
    ∃ db2, update_session_orders db sid n now = Except.ok db2 ∧
      getSession db2 sid =
        some { s with num_orders := n, updated_at := some now } := by
  have heq : update_session_orders db sid n now = Except.ok
      { db with
        sessions := db.sessions.map fun s2 =>
          if s2.id == sid then
            { s2 with num_orders := n, updated_at := some now }
          else s2 } := by
    unfold update_session_orders
    rw [if_neg (not_lt.mpr hn)]
  refine ⟨_, heq, ?_⟩
  · show (db.sessions.map fun s2 =>
        if s2.id == sid then
          { s2 with num_orders := n, updated_at := some now }
        else s2).find? (fun s2 => s2.id == sid) = _
    rw [find?_map_ite (fun s2 : Session => s2.id == sid)
      (fun s2 : Session => { s2 with num_orders := n, updated_at := some now })
      (fun a ha => ha)]
    show ((getSession db sid).map fun s2 =>
        if s2.id == sid then
          { s2 with num_orders := n, updated_at := some now }
        else s2) = _
    rw [hs]
    have hs2 : db.sessions.find? (fun s2 : Session => s2.id == sid) =
        some s := hs
    have hps := List.find?_some hs2
    have hid : s.id = sid := by simpa using hps
    simp [hid]

/-- Witness for C10: updating the order count of an existing batch to 0
succeeds — the creation-time rule `num_orders > 0` is not re-enforced. -/
theorem C10_update_orders_unvalidated_witness :
    ∃ db2, update_session_orders completedDB 1 0 999 = Except.ok db2 ∧
      getSession db2 1 =
        some ⟨1, "2024-03-01", 1, 1, 0, 2, some 999⟩ :=
  C10_update_orders_unvalidated completedDB 1 0 999
    ⟨1, "2024-03-01", 1, 1, 5, 2, none⟩ (by decide) (by decide)

end Expedicao
